import Mathlib

/-!
Shallow embedding of the `stdx` concurrency/logging library
(`include/stdx/concurrency/ring_buffer.hpp`, `thread_pool.hpp`,
`modules/logger/src/logger.cxx` and companions), together with theorems
checking the natural-language specification against it.

The C++ code is multi-threaded; the embedding gives the sequential
(single-interleaving) semantics of each operation: every compare-exchange
succeeds on its first attempt, which is exactly what each operation does in
the absence of interference.  `size_t` counters are modelled as `Nat`; the
code relies on unsigned distance `head - tail`, which for every reachable
state satisfies `tail <= head`, so plain `Nat` subtraction coincides with
the 64-bit unsigned distance.  `double` is modelled as `Rat`.
-/

namespace Stdx

/-- State of `stdx::concurrency::RingBuffer<T, CAPACITY>`: the storage
array (a total function, read modulo the capacity), the `head_`/`tail_`
slot counters and the telemetry counters.  The capacity is a parameter of
the operations, mirroring the C++ template parameter. -/
structure RB (A : Type) where
  buf : Nat → A
  head : Nat
  tail : Nat
  item_count : Nat
  push_count : Nat
  pop_count : Nat
  last_push : Nat
  last_pop : Nat

/-- The freshly constructed ring buffer: all counters zero, storage
default-initialized. -/
def RB.init (A : Type) [Inhabited A] : RB A :=
  { buf := fun _ => default, head := 0, tail := 0, item_count := 0,
    push_count := 0, pop_count := 0, last_push := 0, last_pop := 0 }

/-- Model of `RingBuffer::push`: if `head - tail >= CAPACITY` report full, else
reserve slot `head`, store the item at `head % CAPACITY`, and bump
`push_count` and `item_count`. -/
def RB.push (N : Nat) (s : RB A) (v : A) : Bool × RB A :=
  if N ≤ s.head - s.tail then
    (false, s)
  else
    (true,
      { s with
        buf := fun i => if i = s.head % N then v else s.buf i,
        head := s.head + 1,
        push_count := s.push_count + 1,
        item_count := s.item_count + 1 })

/-- Model of `RingBuffer::pop`: if `tail == head` report empty, else claim slot
`tail`, read `buf[tail % CAPACITY]`, bump `pop_count`, drop `item_count`. -/
def RB.pop (N : Nat) (s : RB A) : Option A × RB A :=
  if s.tail = s.head then
    (none, s)
  else
    (some (s.buf (s.tail % N)),
      { s with
        tail := s.tail + 1,
        pop_count := s.pop_count + 1,
        item_count := s.item_count - 1 })

/-- Model of `RingBuffer::pop_batch(T*, size_t)`: with `available = head - tail`,
return 0 items if empty, else claim `to_pop = min(available, max_count)`
items and return the slots `tail .. tail + to_pop - 1` in increasing
index order. -/
def RB.pop_batch (N : Nat) (s : RB A) (max_count : Nat) : List A × RB A :=
  let available := s.head - s.tail
  if available = 0 then
    ([], s)
  else
    let to_pop := if available > max_count then max_count else available
    ((List.range to_pop).map (fun i => s.buf ((s.tail + i) % N)),
      { s with
        tail := s.tail + to_pop,
        pop_count := s.pop_count + to_pop,
        item_count := s.item_count - to_pop })

/-- Model of `RingBuffer::pop_batch(std::vector<T>&, size_t)`: clamps `max_count`
to the 1024-entry local staging buffer, then defers to the pointer
overload. -/
def RB.pop_batch_vec (N : Nat) (s : RB A) (max_count : Nat) : List A × RB A :=
  RB.pop_batch N s (min max_count 1024)

/-- Model of `RingBuffer::size()`: `head - tail` (unsigned distance). -/
def RB.size (s : RB A) : Nat := s.head - s.tail

/-- Model of `RingBuffer::throughput_ratio()`: deltas of the monotonic telemetry
counters since the previous sample; snapshots `last_push_`/`last_pop_`
are overwritten with the current counters in every case. -/
def RB.throughput_ratio' (s : RB A) : Rat × RB A :=
  let delta_push := s.push_count - s.last_push
  let delta_pop := s.pop_count - s.last_pop
  let s' := { s with last_push := s.push_count, last_pop := s.pop_count }
  if delta_pop = 0 ∧ delta_push = 0 then
    (1, s')
  else if delta_pop = 0 then
    (9999, s')
  else
    (((delta_push : Rat)) / ((delta_pop : Rat)), s')

/-- Push a whole list in order, recording each `push` result. -/
def RB.pushAll (N : Nat) (s : RB A) : List A → List Bool × RB A
  | [] => ([], s)
  | v :: vs =>
    let r := RB.push N s v
    let rest := RB.pushAll N r.2 vs
    (r.1 :: rest.1, rest.2)

/-- Pop `n` times, collecting the successfully popped items in order. -/
def RB.popAll (N : Nat) (s : RB A) : Nat → List A × RB A
  | 0 => ([], s)
  | n + 1 =>
    match RB.pop N s with
    | (none, s') => ([], s')
    | (some v, s') =>
      let rest := RB.popAll N s' n
      (v :: rest.1, rest.2)

/-- Abstraction of the queue contents: the items stored in slots
`tail .. head - 1`, in FIFO order. -/
def RB.contents (N : Nat) (s : RB A) : List A :=
  (List.range (s.head - s.tail)).map (fun i => s.buf ((s.tail + i) % N))

/-- Configuration of `stdx::concurrency::ThreadPool` (the subset that the
monitor loop and `validate_parameters_` read). -/
structure PoolCfg where
  min_threads : Nat
  max_threads : Nat
  spawn_ratio_threshold : Rat
  shrink_ratio_threshold : Rat
  spawn_hysteresis_intervals : Nat
  shrink_hysteresis_intervals : Nat
  enable_batch_scaling : Bool
  batch_scaling_factor : Rat
  deriving DecidableEq

/-- Mutable pool state touched by the monitor loop: the per-context
`active` flags of `threads_` (in vector order) and the three counters. -/
structure PoolSt where
  flags : List Bool
  active_threads : Nat
  spawn_counter : Nat
  shrink_counter : Nat
  deriving DecidableEq

/-- The inner search of `activate_workers_`: flip the first inactive
`active` flag of the first inactive context to true (the loop breaks after the store). -/
def setFirstIdleActive : List Bool → List Bool
  | [] => []
  | false :: rest => true :: rest
  | true :: rest => true :: setFirstIdleActive rest

/-- The inner search of `deactivate_workers_`: flip the first active
flag of the first active context to false. -/
def setFirstActiveIdle : List Bool → List Bool
  | [] => []
  | true :: rest => false :: rest
  | false :: rest => false :: setFirstActiveIdle rest

/-- One iteration of the `activate_workers_` loop body: launch a fresh
(inactive) context when `threads_.size() <= active_threads`, then mark
the first inactive context active and bump `active_threads_`. -/
def activateOne (s : PoolSt) : PoolSt :=
  let s1 :=
    if s.flags.length ≤ s.active_threads then
      { s with flags := s.flags ++ [false] }
    else s
  if s1.flags.contains false then
    { s1 with flags := setFirstIdleActive s1.flags,
              active_threads := s1.active_threads + 1 }
  else s1

/-- Model of `ThreadPool::activate_workers_(count)`: iterate `activateOne` while
`i < count` and `active_threads < max_threads`. -/
def activate_workers (cfg : PoolCfg) (s : PoolSt) : Nat → PoolSt
  | 0 => s
  | k + 1 =>
    if s.active_threads < cfg.max_threads then
      activate_workers cfg (activateOne s) k
    else s

/-- One iteration of the `deactivate_workers_` loop body. -/
def deactivateOne (s : PoolSt) : PoolSt :=
  if s.flags.contains true then
    { s with flags := setFirstActiveIdle s.flags,
             active_threads := s.active_threads - 1 }
  else s

/-- Model of `ThreadPool::deactivate_workers_(count)`. -/
def deactivate_workers (cfg : PoolCfg) (s : PoolSt) : Nat → PoolSt
  | 0 => s
  | k + 1 =>
    if cfg.min_threads < s.active_threads then
      deactivate_workers cfg (deactivateOne s) k
    else s

/-- Worker count requested by a spawn decision:
`1`, or `max(1, (size_t)((ratio - spawn_threshold) / factor))` with
batch scaling (the C++ cast truncates the positive quotient, i.e. takes
its floor). -/
def spawnRequest (cfg : PoolCfg) (r : Rat) : Nat :=
  if cfg.enable_batch_scaling then
    max 1 (Int.toNat (Int.floor ((r - cfg.spawn_ratio_threshold) / cfg.batch_scaling_factor)))
  else 1

/-- Worker count requested by a shrink decision (symmetric). -/
def shrinkRequest (cfg : PoolCfg) (r : Rat) : Nat :=
  if cfg.enable_batch_scaling then
    max 1 (Int.toNat (Int.floor ((cfg.shrink_ratio_threshold - r) / cfg.batch_scaling_factor)))
  else 1

/-- The spawn half of one `monitor_loop_` iteration, for an observed
throughput sample `r`. -/
def monitorSpawn (cfg : PoolCfg) (s : PoolSt) (r : Rat) : PoolSt :=
  if cfg.spawn_ratio_threshold < r then
    if s.active_threads < cfg.max_threads then
      let c := s.spawn_counter + 1
      if cfg.spawn_hysteresis_intervals ≤ c then
        let s' := activate_workers cfg { s with spawn_counter := c } (spawnRequest cfg r)
        { s' with spawn_counter := 0 }
      else { s with spawn_counter := c }
    else s
  else { s with spawn_counter := 0 }

/-- The shrink half of one `monitor_loop_` iteration. -/
def monitorShrink (cfg : PoolCfg) (s : PoolSt) (r : Rat) : PoolSt :=
  if r < cfg.shrink_ratio_threshold then
    if cfg.min_threads < s.active_threads then
      let c := s.shrink_counter + 1
      if cfg.shrink_hysteresis_intervals ≤ c then
        let s' := deactivate_workers cfg { s with shrink_counter := c } (shrinkRequest cfg r)
        { s' with shrink_counter := 0 }
      else { s with shrink_counter := c }
    else s
  else { s with shrink_counter := 0 }

/-- One full iteration of `ThreadPool::monitor_loop_` after reading the
throughput sample `r`: the spawn decision followed by the shrink
decision. -/
def monitor_step (cfg : PoolCfg) (s : PoolSt) (r : Rat) : PoolSt :=
  monitorShrink cfg (monitorSpawn cfg s r) r

/-- The sole configuration error `ThreadPool::validate_parameters_` can
raise. -/
inductive ConfigError where
  | invalid_thresholds
  deriving DecidableEq

/-- Model of `ThreadPool::validate_parameters_`: clamp `min_threads` up to 1,
`reserved_threads` up to `min_threads`, `max_threads` up to
`reserved_threads`; then throw iff
`spawn_ratio_threshold <= shrink_ratio_threshold`.  Returns the clamped
`(min_threads, reserved_threads, max_threads)`. -/
def validate_parameters (min_threads reserved_threads max_threads : Nat)
    (spawn_ratio_threshold shrink_ratio_threshold : Rat) :
    Except ConfigError (Nat × Nat × Nat) :=
  let m := if min_threads < 1 then 1 else min_threads
  let r := if reserved_threads < m then m else reserved_threads
  let x := if max_threads < r then r else max_threads
  if spawn_ratio_threshold ≤ shrink_ratio_threshold then
    Except.error ConfigError.invalid_thresholds
  else
    Except.ok (m, r, x)

/-- Decimal digit character, `'0' + d`. -/
def digitChar (d : Nat) : Char := Char.ofNat (48 + d)

/-- Fuel-bounded digit extraction (structural recursion so that it
reduces; `fuel = n + 1` always suffices). -/
def toDecimalAux : Nat → Nat → List Char
  | 0, _ => []
  | fuel + 1, n =>
    if n < 10 then [digitChar n]
    else toDecimalAux fuel (n / 10) ++ [digitChar (n % 10)]

/-- Decimal rendering of a natural number as the stream-insertion
operators print it: most significant digit first, no padding. -/
def toDecimal (n : Nat) : List Char := toDecimalAux (n + 1) n

/-- Model of `std::setw(w)` + `std::setfill('0')` applied to a natural number:
left-pad the decimal digits with zeros up to width `w` (wider numbers
print in full). -/
def padNum (w n : Nat) : List Char :=
  List.replicate (w - (toDecimal n).length) '0' ++ toDecimal n

/-- Model of `std::setw(w)` with the default space fill applied to a string
field: right-justify within `w` columns. -/
def padField (w : Nat) (s : String) : String :=
  String.mk (List.replicate (w - s.data.length) ' ') ++ s

/-- The four severity levels of the rotating logger
(`Severity::INFO/DEB/WARN/ERR`). -/
inductive Severity where
  | INFO
  | DEB
  | WARN
  | ERR
  deriving DecidableEq

/-- Model of `Logger::severity_to_string` (identical wire strings in every logger
unit of the repository). -/
def severity_to_string : Severity → String
  | Severity.INFO => "INFO"
  | Severity.DEB => "DEBUG"
  | Severity.WARN => "WARNING"
  | Severity.ERR => "ERROR"

/-- A broken-down local time, as produced by `localtime`. -/
structure Tm where
  year : Nat
  month : Nat
  day : Nat
  hour : Nat
  minute : Nat
  sec : Nat
  deriving DecidableEq

/-- Model of `Logger::get_time_stamp` of the rotating logger (`logger.cxx` in
`src/unnamed/part_001` and `LoggerImpl::get_time_stamp`):
`put_time("%Y_%m_%d-%H_%M_%S")` followed by `'.'` and the microsecond
remainder printed with `setw(6)`/`setfill('0')`. -/
def get_time_stamp (t : Tm) (micros : Nat) : String :=
  String.mk (toDecimal t.year ++ '_' :: (padNum 2 t.month ++ '_' :: (padNum 2 t.day
    ++ '-' :: (padNum 2 t.hour ++ '_' :: (padNum 2 t.minute ++ '_' :: (padNum 2 t.sec
    ++ '.' :: padNum 6 micros))))))

/-- Model of `Logger::get_time_stamp` of the legacy logger unit
(`modules/logger/src/logger.cxx`, first translation unit):
`put_time("%Y-%m-%d %H:%M:%S")` followed by `'.'` and the millisecond
remainder printed with `setw(3)`/`setfill('0')`. -/
def legacy_time_stamp (t : Tm) (millis : Nat) : String :=
  String.mk (toDecimal t.year ++ '-' :: (padNum 2 t.month ++ '-' :: (padNum 2 t.day
    ++ ' ' :: (padNum 2 t.hour ++ ':' :: (padNum 2 t.minute ++ ':' :: (padNum 2 t.sec
    ++ '.' :: padNum 3 millis))))))

/-- The line framing used by the worker threads that pad their fields —
the `part_001` `Logger::worker_thread_function` and the legacy unit
(`modules/logger/src/logger.cxx:69-72`), both of which write
`file_ << ts << " | " << setw(10) << component << " | " << setw(8) <<
severity << " | " << message << std::endl`. -/
def format_line (ts component sev msg : String) : String :=
  ts ++ " | " ++ padField 10 component ++ " | " ++ padField 8 sev ++ " | " ++ msg ++ "\n"

/-- The line framing of `LoggerImpl::worker_thread_function`
(`modules/logger/src/logger.cxx:232-235`), which writes
`file_ << ts << " | " << component << " | " << severity << " | " <<
message << std::endl` with no `setw` padding. -/
def impl_format_line (ts component sev msg : String) : String :=
  ts ++ " | " ++ component ++ " | " ++ sev ++ " | " ++ msg ++ "\n"

/-- The full line the `part_001` `Logger` worker thread appends for a
record stamped at local time `t` (+`micros`). -/
def written_line (t : Tm) (micros : Nat) (component : String) (sv : Severity)
    (msg : String) : String :=
  format_line (get_time_stamp t micros) component (severity_to_string sv) msg

/-- The full line the `LoggerImpl` worker thread appends for a record
stamped at local time `t` (+`micros`): same microsecond timestamp,
unpadded fields. -/
def impl_written_line (t : Tm) (micros : Nat) (component : String) (sv : Severity)
    (msg : String) : String :=
  impl_format_line (get_time_stamp t micros) component (severity_to_string sv) msg

/-- The full line the worker thread of the legacy logger appends. -/
def legacy_written_line (t : Tm) (millis : Nat) (component : String) (sv : Severity)
    (msg : String) : String :=
  format_line (legacy_time_stamp t millis) component (severity_to_string sv) msg

/-- Byte predicate for a decimal digit character. -/
def isDigitB (c : Char) : Bool := decide (48 ≤ c.toNat) && decide (c.toNat ≤ 57)

/-- Character-class match of a string against a pattern, position by
position (the pattern fixes the exact length). -/
def checkPattern : List (Char → Bool) → List Char → Bool
  | [], [] => true
  | p :: ps, c :: cs => p c && checkPattern ps cs
  | _, _ => false

/-- The claimed timestamp shape `YYYY_MM_DD-HH_MM_SS.ffffff`. -/
def tsPattern : List (Char → Bool) :=
  [isDigitB, isDigitB, isDigitB, isDigitB, fun c => c = '_',
   isDigitB, isDigitB, fun c => c = '_', isDigitB, isDigitB,
   fun c => c = '-', isDigitB, isDigitB, fun c => c = '_',
   isDigitB, isDigitB, fun c => c = '_', isDigitB, isDigitB,
   fun c => c = '.', isDigitB, isDigitB, isDigitB, isDigitB, isDigitB, isDigitB]

/-- Decides whether a string has the claimed timestamp format
`YYYY_MM_DD-HH_MM_SS.ffffff` (six zero-padded microsecond digits). -/
def isClaimTimestamp (s : String) : Bool := checkPattern tsPattern s.data

/-- The slice of logger state that `Logger::rotate_file` touches: the
name parts of the active file and the set of file names already present
in the `history` directory. -/
structure RotSt where
  stem : String
  first_ts : String
  last_ts : String
  ext : String
  history : List String
  deriving DecidableEq

/-- The archive name `rotate_file` builds:
`stem + "-" + first_timestamp_ + "-" + last_timestamp_ + extension`.
It is computed without consulting the existing history entries. -/
def rotated_name (stem first_ts last_ts ext : String) : String :=
  stem ++ "-" ++ first_ts ++ "-" ++ last_ts ++ ext

/-- Model of `Logger::rotate_file` / `LoggerImpl::rotate_file`: rename the active
file into `history/` under `rotated_name` and clear both timestamps. -/
def rotate_file (s : RotSt) : RotSt :=
  { s with
    history := rotated_name s.stem s.first_ts s.last_ts s.ext :: s.history,
    first_ts := "",
    last_ts := "" }

/-- Modelled from the spec: the rotated-file naming rule the spec
states, including the collision handling that is absent from the source
(`"append -<seq> where seq is the smallest positive integer making the
name unique"`).  The search is fuel-bounded; fuel `|existing| + 1`
suffices by pigeonhole. -/
def specSeqSearch (existing : List String) (stem first_ts last_ts ext : String) :
    Nat → Nat → String
  | 0, k => stem ++ "-" ++ first_ts ++ "-" ++ last_ts ++ "-" ++ String.mk (toDecimal k) ++ ext
  | fuel + 1, k =>
    let cand := stem ++ "-" ++ first_ts ++ "-" ++ last_ts ++ "-" ++ String.mk (toDecimal k) ++ ext
    if existing.contains cand then
      specSeqSearch existing stem first_ts last_ts ext fuel (k + 1)
    else cand

/-- Modelled from the spec: the complete spec-side naming rule — the
plain `rotated_name` when it is fresh, otherwise the smallest `-<seq>`
suffix making it unique. -/
def specRotatedName (existing : List String) (stem first_ts last_ts ext : String) : String :=
  let base := rotated_name stem first_ts last_ts ext
  if existing.contains base then
    specSeqSearch existing stem first_ts last_ts ext (existing.length + 1) 1
  else base

/-- State of `stdx::LogManager`: the `initialized_` flag (the filesystem
side effects of constructing `LoggerImpl` are abstracted as succeeding). -/
structure LMSt where
  inited : Bool
  deriving DecidableEq

/-- The error `LogManager::initialize` raises on duplicate use. -/
inductive LMErr where
  | already_inited
  deriving DecidableEq

/-- Model of `LogManager::initialize`: throws iff `initialized_` is already set;
otherwise constructs the implementation and sets `initialized_`. -/
def lm_init (s : LMSt) : Except LMErr LMSt :=
  if s.inited then Except.error LMErr.already_inited
  else Except.ok { inited := true }

/-- Model of `LogManager::shutdown`: no-op when not initialized, else destroys
the implementation and clears `initialized_`. -/
def lm_shutdown (s : LMSt) : LMSt :=
  if s.inited then { inited := false } else s

/-- Pool configuration for the C6 counterexample: batch scaling on,
factor 1, spawn threshold 1, hysteresis 1, at most 2 threads. -/
def cfgC6 : PoolCfg :=
  { min_threads := 1, max_threads := 2, spawn_ratio_threshold := 1,
    shrink_ratio_threshold := 0, spawn_hysteresis_intervals := 1,
    shrink_hysteresis_intervals := 1, enable_batch_scaling := true,
    batch_scaling_factor := 1 }

/-- One active worker out of one context. -/
def poolC6 : PoolSt :=
  { flags := [true], active_threads := 1, spawn_counter := 0, shrink_counter := 0 }

/-- Pool configuration for the C6 witness: batch scaling off,
hysteresis 2, at most 3 threads. -/
def cfgW : PoolCfg :=
  { min_threads := 1, max_threads := 3, spawn_ratio_threshold := 1,
    shrink_ratio_threshold := (1 : Rat) / 2, spawn_hysteresis_intervals := 2,
    shrink_hysteresis_intervals := 2, enable_batch_scaling := false,
    batch_scaling_factor := 1 }

/-- One active worker out of two contexts, spawn counter already at 1. -/
def poolW : PoolSt :=
  { flags := [true, false], active_threads := 1, spawn_counter := 1,
    shrink_counter := 0 }

/-- A concrete local time used by the C8 counterexample. -/
def tmSample : Tm :=
  { year := 2025, month := 2, day := 6, hour := 10, minute := 5, sec := 2 }

/-- Component name used by the C8 counterexample. -/
def compSample : String := "Main"

/-- Message used by the C8 counterexample. -/
def msgSample : String := "hello"

/-- The timestamp the legacy logger produces at `tmSample` + 123 ms. -/
def legacyTs : String := "2025-02-06 10:05:02.123"

/-- The colliding archive name for the C5 counterexample. -/
def histName : String := "log-A-B.txt"

/-- The name that the collision rule of the spec would pick instead. -/
def seqName : String := "log-A-B-1.txt"

/-- Rotation state whose history already holds the archive name the next
rotation will produce. -/
def rotSample : RotSt :=
  { stem := "log", first_ts := "A", last_ts := "B", ext := ".txt",
    history := [histName] }

/-- A capacity-2048 buffer holding 2000 items, slot `i` storing `i`. -/
def rbBig : RB Nat :=
  { buf := fun i => i, head := 2000, tail := 0, item_count := 2000,
    push_count := 2000, pop_count := 0, last_push := 0, last_pop := 0 }

/-- A capacity-4 buffer holding 3 items, used to witness C4. -/
def rbBatchW : RB Nat :=
  { buf := fun i => i + 10, head := 3, tail := 0, item_count := 3,
    push_count := 3, pop_count := 0, last_push := 0, last_pop := 0 }

/-- A concrete ring-buffer state with push delta 4 and pop delta 2,
used to witness C1. -/
def rbSample : RB Nat :=
  { buf := fun _ => 0, head := 6, tail := 4, item_count := 2,
    push_count := 6, pop_count := 4, last_push := 2, last_pop := 2 }

/-- A concrete full capacity-8 buffer, used to witness C10. -/
def rbFull8 : RB Nat :=
  { buf := fun _ => 0, head := 9, tail := 1, item_count := 8,
    push_count := 9, pop_count := 1, last_push := 0, last_pop := 0 }

/-- C1: `throughput_ratio()` returns 1.0 when both deltas are zero,
9999.0 when only the pop delta is zero with a positive push delta, the
quotient of the deltas otherwise, and in every case overwrites
`last_push_`/`last_pop_` with the current counters. -/
theorem claim_C1 (s : RB A) :
    ((RB.throughput_ratio' s).2.last_push = s.push_count ∧
      (RB.throughput_ratio' s).2.last_pop = s.pop_count) ∧
    (s.push_count - s.last_push = 0 → s.pop_count - s.last_pop = 0 →
      (RB.throughput_ratio' s).1 = 1) ∧
    (s.pop_count - s.last_pop = 0 → 0 < s.push_count - s.last_push →
      (RB.throughput_ratio' s).1 = 9999) ∧
    (s.pop_count - s.last_pop ≠ 0 →
      (RB.throughput_ratio' s).1 =
        ((s.push_count - s.last_push : Nat) : Rat) / ((s.pop_count - s.last_pop : Nat) : Rat)) := by
  unfold RB.throughput_ratio'
  refine ⟨?_, ?_, ?_, ?_⟩
  · dsimp only
    split
    · simp
    · split <;> simp
  · intro hp hq
    simp [hp, hq]
  · intro hq hp
    have : ¬ (s.push_count - s.last_push = 0) := by omega
    simp [hq, this]
  · intro hq
    simp [hq]

/-- Witness for C1 at a concrete state: push delta 4, pop delta 2,
sample 2, snapshots updated. -/
theorem claim_C1_witness :
    (RB.throughput_ratio' rbSample).1 = (((6 - 2 : Nat) : Rat)) / (((4 - 2 : Nat) : Rat)) ∧
    (RB.throughput_ratio' rbSample).2.last_push = 6 :=
  ⟨(claim_C1 rbSample).2.2.2 (by decide), (claim_C1 rbSample).1.1⟩

/-- C2: `push` returns false exactly when the unsigned distance
`head - tail` has reached the capacity, `pop` returns false exactly when
`tail == head`; concretely with capacity 8: eight pushes succeed, the
ninth fails, and after four pops exactly four further pushes succeed
before push fails again. -/
theorem claim_C2 :
    (∀ (s : RB Nat) (v : Nat), (RB.push 8 s v).1 = false ↔ 8 ≤ s.head - s.tail) ∧
    (∀ s : RB Nat, (RB.pop 8 s).1 = none ↔ s.tail = s.head) ∧
    ((RB.pushAll 8 (RB.init Nat) [0, 1, 2, 3, 4, 5, 6, 7]).1 = List.replicate 8 true ∧
      (RB.push 8 (RB.pushAll 8 (RB.init Nat) [0, 1, 2, 3, 4, 5, 6, 7]).2 8).1 = false ∧
      (RB.pushAll 8
        (RB.popAll 8 (RB.pushAll 8 (RB.init Nat) [0, 1, 2, 3, 4, 5, 6, 7]).2 4).2
        [8, 9, 10, 11]).1 = List.replicate 4 true ∧
      (RB.push 8
        (RB.pushAll 8
          (RB.popAll 8 (RB.pushAll 8 (RB.init Nat) [0, 1, 2, 3, 4, 5, 6, 7]).2 4).2
          [8, 9, 10, 11]).2 12).1 = false) := by
  refine ⟨?_, ?_, by decide⟩
  · intro s v
    unfold RB.push
    split <;> simp_all
  · intro s
    unfold RB.pop
    split <;> simp_all

/-- C10: pushing into a full buffer returns false and leaves the whole
state — counters and every slot — untouched. -/
theorem claim_C10 (N : Nat) (s : RB A) (v : A) (h : N ≤ s.head - s.tail) :
    RB.push N s v = (false, s) := by
  unfold RB.push
  simp [h]

/-- Witness for C10: a concrete full capacity-8 buffer rejects a push
unchanged. -/
theorem claim_C10_witness : RB.push 8 rbFull8 42 = (false, rbFull8) :=
  claim_C10 8 rbFull8 42 (by decide)

/-- C9: `LogManager::initialize` fails exactly when the manager is
already initialized; a successful call marks it initialized, so a second
call with no intervening shutdown always fails, while a shutdown
re-enables initialization. -/
theorem claim_C9 :
    (∀ s : LMSt, (lm_init s).isOk = false ↔ s.inited = true) ∧
    (∀ (s s' : LMSt), lm_init s = Except.ok s' → s'.inited = true) ∧
    (∀ (s s' : LMSt), lm_init s = Except.ok s' → (lm_init s').isOk = false) ∧
    (∀ s : LMSt, (lm_init (lm_shutdown s)).isOk = true) := by
  refine ⟨?_, ?_, ?_, ?_⟩
  · intro s
    rcases s with ⟨b⟩
    cases b <;> simp [lm_init, Except.isOk, Except.toBool]
  · intro s s' h
    rcases s with ⟨b⟩
    cases b <;> simp [lm_init] at h
    simp [← h]
  · intro s s' h
    rcases s with ⟨b⟩
    cases b <;> simp [lm_init] at h
    simp [← h, lm_init, Except.isOk, Except.toBool]
  · intro s
    rcases s with ⟨b⟩
    cases b <;> simp [lm_init, lm_shutdown, Except.isOk, Except.toBool]

/-- Witness for C9: from a fresh manager, the first `initialize`
succeeds and the second fails. -/
theorem claim_C9_witness :
    (lm_init { inited := true }).isOk = false ∧
    (lm_init (lm_shutdown { inited := true })).isOk = true :=
  ⟨claim_C9.2.2.1 { inited := false } { inited := true } rfl,
    claim_C9.2.2.2 { inited := true }⟩

/-- Counterexample to C7: with `spawn_threshold = 1/2` and
`shrink_threshold = -1` the spec-side constraint
`spawn_threshold > shrink_threshold > 0` is violated (the shrink
threshold is not positive), yet `validate_parameters_` does not fail —
the code only compares the two thresholds with each other. -/
theorem claim_C7_counterexample :
    validate_parameters 1 1 1 ((1 : Rat) / 2) (-1) = Except.ok (1, 1, 1) ∧
    ¬ ((0 : Rat) < -1) := by
  constructor
  · have h : ¬ ((1 : Rat) / 2 ≤ -1) := by norm_num
    simp [validate_parameters, h]
    norm_num
  · norm_num

/-- C7 as amended: the three thread counts are clamped exactly as
claimed (`min` up to 1, `reserved` up to `min`, `max` up to `reserved`),
but construction fails exactly when
`spawn_threshold <= shrink_threshold`; positivity of the shrink
threshold is never checked. -/
theorem claim_C7_amended (mt rt xt : Nat) (sp sh : Rat) :
    validate_parameters mt rt xt sp sh =
      (if sp ≤ sh then Except.error ConfigError.invalid_thresholds
        else Except.ok (max 1 mt, max (max 1 mt) rt, max (max (max 1 mt) rt) xt)) ∧
    ((validate_parameters mt rt xt sp sh).isOk = true ↔ sh < sp) := by
  have hm : (if mt < 1 then 1 else mt) = max 1 mt := by split <;> omega
  have hr : (if rt < max 1 mt then max 1 mt else rt) = max (max 1 mt) rt := by
    split <;> omega
  have hx : (if xt < max (max 1 mt) rt then max (max 1 mt) rt else xt) =
      max (max (max 1 mt) rt) xt := by split <;> omega
  have key : validate_parameters mt rt xt sp sh =
      (if sp ≤ sh then Except.error ConfigError.invalid_thresholds
        else Except.ok (max 1 mt, max (max 1 mt) rt, max (max (max 1 mt) rt) xt)) := by
    simp only [validate_parameters]
    rw [hm, hr, hx]
  refine ⟨key, ?_⟩
  rw [key]
  by_cases h : sp ≤ sh
  · simp [h, Except.isOk, Except.toBool]
  · simp [h, Except.isOk, Except.toBool]
    exact lt_of_not_ge h

/-- Counterexample to C5: a rotation whose target name
`log-A-B.txt` is already present in `history` renames to exactly that
colliding name — `rotate_file` never appends the `-<seq>` suffix the
claim requires (which would have produced `log-A-B-1.txt`). -/
theorem claim_C5_counterexample :
    rotated_name rotSample.stem rotSample.first_ts rotSample.last_ts rotSample.ext =
      histName ∧
    rotSample.history.contains histName = true ∧
    (rotate_file rotSample).history = histName :: rotSample.history ∧
    specRotatedName rotSample.history rotSample.stem rotSample.first_ts
      rotSample.last_ts rotSample.ext = seqName ∧
    histName ≠ seqName := by
  refine ⟨by decide, by decide, by decide, by decide, by decide⟩

/-- C5 as amended: every rotation archives the active file under
`<stem>-<first_timestamp>-<last_timestamp><extension>` in the history
directory and clears both timestamps; the chosen name is independent of
which names already exist, so no uniqueness suffix is ever applied. -/
theorem claim_C5_amended (s : RotSt) :
    (rotate_file s).history =
      rotated_name s.stem s.first_ts s.last_ts s.ext :: s.history ∧
    (rotate_file s).first_ts = "" ∧
    (rotate_file s).last_ts = "" ∧
    (∀ h₁ h₂ : List String,
      (rotate_file { s with history := h₁ }).history.head? =
        (rotate_file { s with history := h₂ }).history.head?) := by
  refine ⟨rfl, rfl, rfl, fun h₁ h₂ => ?_⟩
  simp [rotate_file]

/-- Counterexample to C4: the `std::vector` overload of `pop_batch`
stages through a 1024-element local array, so on a capacity-2048 buffer
holding 2000 items a request for 2000 pops removes only 1024, not
`min(available, max) = 2000`. -/
theorem claim_C4_counterexample :
    RB.size rbBig = 2000 ∧
    min (RB.size rbBig) 2000 = 2000 ∧
    (RB.pop_batch_vec 2048 rbBig 2000).1.length = 1024 ∧
    (1024 : Nat) ≠ 2000 := by
  refine ⟨rfl, rfl, ?_, by decide⟩
  simp [RB.pop_batch_vec, RB.pop_batch, rbBig]

/-- C4 as amended: the pointer overload of `pop_batch` removes exactly
`min(available, max)` items — in increasing slot order, 0 exactly when
the buffer was empty — and the vector overload equals the pointer
overload with `max` first clamped to 1024. -/
theorem claim_C4_amended (N : Nat) (s : RB A) (max_count : Nat) (h : 1 ≤ max_count) :
    ((RB.pop_batch N s max_count).1 =
        (List.range (min (RB.size s) max_count)).map (fun i => s.buf ((s.tail + i) % N)) ∧
      (RB.pop_batch N s max_count).2.tail = s.tail + min (RB.size s) max_count ∧
      ((RB.pop_batch N s max_count).1 = [] ↔ RB.size s = 0)) ∧
    RB.pop_batch_vec N s max_count = RB.pop_batch N s (min max_count 1024) := by
  refine ⟨?_, rfl⟩
  unfold RB.pop_batch RB.size
  by_cases hav : s.head - s.tail = 0
  · simp [hav]
  · have hmin : (if s.head - s.tail > max_count then max_count else s.head - s.tail) =
        min (s.head - s.tail) max_count := by split <;> omega
    simp only [hav, if_neg (by omega : ¬ (s.head - s.tail = 0)), hmin]
    refine ⟨rfl, rfl, ?_⟩
    constructor
    · intro he
      have h0 : min (s.head - s.tail) max_count = 0 := by
        have hl := congrArg List.length he
        simpa using hl
      omega
    · intro he
      exact he.elim

/-- Distinct offsets below the capacity land in distinct slots. -/
theorem slot_ne_of_offset_ne {t i n N : Nat} (hi : i < N) (hn : n < N)
    (hne : i ≠ n) : (t + i) % N ≠ (t + n) % N := by
  intro h
  have hmod : i % N = n % N := Nat.ModEq.add_left_cancel' t h
  rw [Nat.mod_eq_of_lt hi, Nat.mod_eq_of_lt hn] at hmod
  exact hne hmod

/-- A push into a non-full buffer succeeds, advances `head` only, and
appends the item to the FIFO contents. -/
theorem RB.push_spec (N : Nat) (s : RB A) (v : A)
    (hfull : s.head - s.tail < N) (wf : s.tail ≤ s.head) :
    (RB.push N s v).1 = true ∧
    (RB.push N s v).2.head = s.head + 1 ∧
    (RB.push N s v).2.tail = s.tail ∧
    RB.contents N (RB.push N s v).2 = RB.contents N s ++ [v] := by
  have hcond : ¬ N ≤ s.head - s.tail := by omega
  unfold RB.push
  simp only [if_neg hcond]
  refine ⟨by trivial, by trivial, by trivial, ?_⟩
  unfold RB.contents
  simp only
  have hlen : s.head + 1 - s.tail = (s.head - s.tail) + 1 := by omega
  rw [hlen, List.range_succ, List.map_append]
  congr 1
  · apply List.map_congr_left
    intro i hi
    have hi' : i < s.head - s.tail := List.mem_range.mp hi
    have hne : (s.tail + i) % N ≠ s.head % N := by
      have hh : s.head = s.tail + (s.head - s.tail) := by omega
      rw [hh]
      exact slot_ne_of_offset_ne (by omega) (by omega) (by omega)
    simp [hne]
  · have hh : s.tail + (s.head - s.tail) = s.head := by omega
    simp [hh]

/-- A pop from a non-empty buffer returns the head of the FIFO
contents, advances `tail` only, and leaves the remaining contents. -/
theorem RB.pop_spec (N : Nat) (s : RB A)
    (hne : s.tail ≠ s.head) (wf : s.tail ≤ s.head) :
    (RB.pop N s).1 = some (s.buf (s.tail % N)) ∧
    (RB.pop N s).2.head = s.head ∧
    (RB.pop N s).2.tail = s.tail + 1 ∧
    RB.contents N s = s.buf (s.tail % N) :: RB.contents N (RB.pop N s).2 := by
  unfold RB.pop
  simp only [if_neg hne]
  refine ⟨by trivial, by trivial, by trivial, ?_⟩
  unfold RB.contents
  simp only
  obtain ⟨m, hm⟩ : ∃ m, s.head - s.tail = m + 1 := ⟨s.head - s.tail - 1, by omega⟩
  have hm' : s.head - (s.tail + 1) = m := by omega
  rw [hm, hm', List.range_succ_eq_map, List.map_cons, List.map_map]
  simp only [Nat.add_zero]
  congr 1
  apply List.map_congr_left
  intro i _
  simp only [Function.comp, Nat.succ_eq_add_one]
  have harg : s.tail + (i + 1) = s.tail + 1 + i := by omega
  rw [harg]

/-- Pushing a list into a buffer with enough free room succeeds item by
item and appends the list to the FIFO contents. -/
theorem RB.pushAll_spec (N : Nat) (xs : List A) : ∀ s : RB A,
    s.tail ≤ s.head → s.head - s.tail + xs.length ≤ N →
    (RB.pushAll N s xs).1 = List.replicate xs.length true ∧
    (RB.pushAll N s xs).2.head = s.head + xs.length ∧
    (RB.pushAll N s xs).2.tail = s.tail ∧
    RB.contents N (RB.pushAll N s xs).2 = RB.contents N s ++ xs := by
  induction xs with
  | nil =>
    intro s _ _
    exact ⟨rfl, by simp [RB.pushAll], rfl, by simp [RB.pushAll]⟩
  | cons x xs ih =>
    intro s wf hroom
    have hlen : (x :: xs).length = xs.length + 1 := List.length_cons x xs
    have hfull : s.head - s.tail < N := by
      rw [hlen] at hroom
      omega
    obtain ⟨h1, h2, h3, h4⟩ := RB.push_spec N s x hfull wf
    have wf' : (RB.push N s x).2.tail ≤ (RB.push N s x).2.head := by omega
    have hroom' : (RB.push N s x).2.head - (RB.push N s x).2.tail + xs.length ≤ N := by
      rw [hlen] at hroom
      omega
    obtain ⟨g1, g2, g3, g4⟩ := ih (RB.push N s x).2 wf' hroom'
    have hunfold : RB.pushAll N s (x :: xs) =
        ((RB.push N s x).1 :: (RB.pushAll N (RB.push N s x).2 xs).1,
          (RB.pushAll N (RB.push N s x).2 xs).2) := rfl
    refine ⟨?_, ?_, ?_, ?_⟩
    · rw [hunfold, hlen]
      simp only
      rw [h1, g1, List.replicate_succ]
    · rw [hunfold, hlen]
      simp only
      omega
    · rw [hunfold]
      simp only
      rw [g3, h3]
    · rw [hunfold]
      simp only
      rw [g4, h4]
      simp

/-- Draining a buffer with exactly `n` stored items yields the FIFO
contents and empties the buffer. -/
theorem RB.popAll_spec (N : Nat) : ∀ (n : Nat) (s : RB A),
    s.tail ≤ s.head → s.head - s.tail = n →
    (RB.popAll N s n).1 = RB.contents N s ∧
    (RB.popAll N s n).2.tail = (RB.popAll N s n).2.head := by
  intro n
  induction n with
  | zero =>
    intro s wf hn
    have : s.tail = s.head := by omega
    exact ⟨by simp [RB.popAll, RB.contents, hn], by simp [RB.popAll, this]⟩
  | succ m ih =>
    intro s wf hn
    have hne : s.tail ≠ s.head := by omega
    obtain ⟨p1, p2, p3, p4⟩ := RB.pop_spec N s hne wf
    have wf' : (RB.pop N s).2.tail ≤ (RB.pop N s).2.head := by omega
    have hn' : (RB.pop N s).2.head - (RB.pop N s).2.tail = m := by omega
    obtain ⟨q1, q2⟩ := ih (RB.pop N s).2 wf' hn'
    set s' := (RB.pop N s).2 with hs'
    have hps : RB.pop N s = (some (s.buf (s.tail % N)), s') := by
      rw [← p1, hs']
    constructor
    · simp only [RB.popAll, hps]
      rw [q1, p4]
    · simp only [RB.popAll, hps]
      exact q2

/-- A single decimal digit renders as a digit character. -/
theorem isDigitB_digitChar (d : Nat) (h : d < 10) : isDigitB (digitChar d) = true := by
  interval_cases d <;> decide

/-- Every character produced by the digit extractor is a digit. -/
theorem toDecimalAux_digits : ∀ (fuel n : Nat), ∀ c ∈ toDecimalAux fuel n,
    isDigitB c = true := by
  intro fuel
  induction fuel with
  | zero => intro n c hc; simp [toDecimalAux] at hc
  | succ f ih =>
    intro n c hc
    by_cases h10 : n < 10
    · simp [toDecimalAux, h10] at hc
      rw [hc]
      exact isDigitB_digitChar n h10
    · simp only [toDecimalAux, if_neg h10, List.mem_append, List.mem_singleton] at hc
      rcases hc with hc | hc
      · exact ih (n / 10) c hc
      · rw [hc]
        exact isDigitB_digitChar (n % 10) (Nat.mod_lt _ (by omega))

/-- At most `w` digits are produced for numbers below `10 ^ w`. -/
theorem toDecimalAux_len_le : ∀ (fuel w n : Nat), 1 ≤ w → n < 10 ^ w →
    (toDecimalAux fuel n).length ≤ w := by
  intro fuel
  induction fuel with
  | zero => intro w n hw _; simp [toDecimalAux]
  | succ f ih =>
    intro w n hw hn
    by_cases h10 : n < 10
    · simp [toDecimalAux, h10]
      omega
    · have hw2 : 2 ≤ w := by
        by_contra hlt
        have hw1 : w = 1 := by omega
        rw [hw1] at hn
        simp at hn
        omega
      have hdiv : n / 10 < 10 ^ (w - 1) := by
        have h1 : (10 : Nat) ^ w = 10 ^ (w - 1) * 10 := by
          rw [← Nat.pow_succ]
          congr 1
          omega
        rw [Nat.div_lt_iff_lt_mul (by omega)]
        omega
      have := ih (w - 1) (n / 10) (by omega) hdiv
      simp [toDecimalAux, h10]
      omega

/-- At least `w + 1` digits are produced for numbers at or above
`10 ^ w`, given enough fuel. -/
theorem toDecimalAux_len_ge : ∀ (fuel w n : Nat), 10 ^ w ≤ n → w < fuel →
    w + 1 ≤ (toDecimalAux fuel n).length := by
  intro fuel
  induction fuel with
  | zero => intro w n _ hf; omega
  | succ f ih =>
    intro w n hn hf
    by_cases h10 : n < 10
    · have hw0 : w = 0 := by
        by_contra h
        have h1 : 1 ≤ w := by omega
        have : 10 ≤ 10 ^ w := by
          calc (10 : Nat) = 10 ^ 1 := by norm_num
          _ ≤ 10 ^ w := Nat.pow_le_pow_right (by omega) h1
        omega
      simp [toDecimalAux, h10, hw0]
    · rcases Nat.eq_zero_or_pos w with hw0 | hwpos
      · have : 1 ≤ (toDecimalAux f (n / 10)).length + 1 := by omega
        simp [toDecimalAux, h10]
        omega
      · have hdiv : 10 ^ (w - 1) ≤ n / 10 := by
          rw [Nat.le_div_iff_mul_le (by omega)]
          have h1 : (10 : Nat) ^ (w - 1) * 10 = 10 ^ w := by
            rw [← Nat.pow_succ]
            congr 1
            omega
          omega
        have := ih (w - 1) (n / 10) hdiv (by omega)
        simp [toDecimalAux, h10]
        omega

/-- Every character of `toDecimal` is a digit. -/
theorem toDecimal_digits (n : Nat) : ∀ c ∈ toDecimal n, isDigitB c = true :=
  toDecimalAux_digits (n + 1) n

/-- Lemma: `toDecimal` width upper bound. -/
theorem toDecimal_len_le (w n : Nat) (hw : 1 ≤ w) (hn : n < 10 ^ w) :
    (toDecimal n).length ≤ w :=
  toDecimalAux_len_le (n + 1) w n hw hn

/-- Lemma: `toDecimal` width lower bound. -/
theorem toDecimal_len_ge (w n : Nat) (hn : 10 ^ w ≤ n) :
    w + 1 ≤ (toDecimal n).length := by
  refine toDecimalAux_len_ge (n + 1) w n hn ?_
  have : w < 10 ^ w := Nat.lt_pow_self (by omega) w
  omega

/-- Lemma: `padNum` produces exactly `w` characters when the digits fit. -/
theorem padNum_length (w n : Nat) (h : (toDecimal n).length ≤ w) :
    (padNum w n).length = w := by
  simp [padNum]
  omega

/-- Every character of `padNum` is a digit. -/
theorem padNum_digits (w n : Nat) : ∀ c ∈ padNum w n, isDigitB c = true := by
  intro c hc
  simp only [padNum, List.mem_append, List.mem_replicate] at hc
  rcases hc with ⟨_, hc⟩ | hc
  · rw [hc]; decide
  · exact toDecimal_digits n c hc

/-- Lemma: `checkPattern` accepts a block of digits followed by an accepted
remainder. -/
theorem checkPattern_digits_append : ∀ (xs : List Char) (k : Nat)
    (ps : List (Char → Bool)) (ys : List Char), xs.length = k →
    (∀ c ∈ xs, isDigitB c = true) → checkPattern ps ys = true →
    checkPattern (List.replicate k isDigitB ++ ps) (xs ++ ys) = true := by
  intro xs
  induction xs with
  | nil =>
    intro k ps ys hk _ hrest
    simp at hk
    rw [← hk]
    simpa using hrest
  | cons c cs ih =>
    intro k ps ys hk hdig hrest
    rcases k with _ | m
    · simp at hk
    · have hm : cs.length = m := by simpa using hk
      have hc : isDigitB c = true := hdig c (by simp)
      have hcs : ∀ d ∈ cs, isDigitB d = true := fun d hd => hdig d (by simp [hd])
      simp only [List.replicate_succ, List.cons_append, checkPattern, hc,
        Bool.true_and]
      exact ih m ps ys hm hcs hrest

/-- Lemma: `checkPattern` accepts a literal character followed by an accepted
remainder. -/
theorem checkPattern_cons_self (c : Char) (ps : List (Char → Bool))
    (ys : List Char) (h : checkPattern ps ys = true) :
    checkPattern ((fun x => decide (x = c)) :: ps) (c :: ys) = true := by
  simp [checkPattern, h]

/-- Lemma: `checkPattern` accepts a terminal block of digits. -/
theorem checkPattern_digits (xs : List Char) (k : Nat) (hk : xs.length = k)
    (hdig : ∀ c ∈ xs, isDigitB c = true) :
    checkPattern (List.replicate k isDigitB) xs = true := by
  have h := checkPattern_digits_append xs k [] [] hk hdig rfl
  simpa using h

/-- Marking the first idle context active raises the active count by
one. -/
theorem count_true_setFirstIdleActive : ∀ l : List Bool, false ∈ l →
    (setFirstIdleActive l).count true = l.count true + 1 := by
  intro l
  induction l with
  | nil => intro h; simp at h
  | cons b rest ih =>
    intro h
    cases b
    · simp [setFirstIdleActive, List.count_cons]
    · have hrest : false ∈ rest := by simpa using h
      simp [setFirstIdleActive, List.count_cons, ih hrest]

/-- A flag list whose `true` count is below its length holds an idle
context. -/
theorem false_mem_of_count_lt : ∀ l : List Bool, l.count true < l.length →
    false ∈ l := by
  intro l h
  by_contra hf
  have hall : ∀ b ∈ l, true = b := by
    intro b hb
    cases b
    · exact absurd hb hf
    · rfl
  rw [List.count_eq_length.mpr hall] at h
  exact lt_irrefl _ h

/-- One `activate_workers_` iteration always activates exactly one
worker when the flag-count invariant holds, and touches nothing else. -/
theorem activateOne_spec (s : PoolSt) (hinv : s.flags.count true = s.active_threads) :
    (activateOne s).active_threads = s.active_threads + 1 ∧
    (activateOne s).flags.count true = (activateOne s).active_threads ∧
    (activateOne s).spawn_counter = s.spawn_counter ∧
    (activateOne s).shrink_counter = s.shrink_counter := by
  unfold activateOne
  by_cases hlen : s.flags.length ≤ s.active_threads
  · simp only [if_pos hlen]
    have hmem : false ∈ s.flags ++ [false] := by simp
    have hcontains : (s.flags ++ [false]).contains false = true :=
      List.elem_iff.mpr hmem
    simp only [hcontains, if_pos]
    refine ⟨by trivial, ?_, by trivial, by trivial⟩
    simp only [count_true_setFirstIdleActive _ hmem]
    simp [hinv]
  · simp only [if_neg hlen]
    have hmem : false ∈ s.flags := by
      apply false_mem_of_count_lt
      omega
    have hcontains : s.flags.contains false = true := List.elem_iff.mpr hmem
    simp only [hcontains, if_pos]
    exact ⟨by trivial, by simp [count_true_setFirstIdleActive _ hmem, hinv],
      by trivial, by trivial⟩

/-- Lemma: `activate_workers_(count)` activates exactly
`min(count, max_threads - active_threads)` workers, preserving the
flag-count invariant and both hysteresis counters. -/
theorem activate_workers_spec (cfg : PoolCfg) : ∀ (k : Nat) (s : PoolSt),
    s.flags.count true = s.active_threads →
    (activate_workers cfg s k).active_threads =
      s.active_threads + min k (cfg.max_threads - s.active_threads) ∧
    (activate_workers cfg s k).flags.count true =
      (activate_workers cfg s k).active_threads ∧
    (activate_workers cfg s k).spawn_counter = s.spawn_counter ∧
    (activate_workers cfg s k).shrink_counter = s.shrink_counter := by
  intro k
  induction k with
  | zero =>
    intro s hinv
    exact ⟨by simp [activate_workers], hinv, rfl, rfl⟩
  | succ m ih =>
    intro s hinv
    by_cases hcap : s.active_threads < cfg.max_threads
    · obtain ⟨a1, a2, a3, a4⟩ := activateOne_spec s hinv
      obtain ⟨b1, b2, b3, b4⟩ := ih (activateOne s) a2
      have hunfold : activate_workers cfg s (m + 1) =
          activate_workers cfg (activateOne s) m := by
        simp [activate_workers, hcap]
      rw [hunfold]
      refine ⟨?_, b2, by rw [b3, a3], by rw [b4, a4]⟩
      rw [b1, a1]
      omega
    · have hunfold : activate_workers cfg s (m + 1) = s := by
        simp [activate_workers, hcap]
      rw [hunfold]
      refine ⟨?_, hinv, rfl, rfl⟩
      omega

/-- C3: from an empty buffer, a sequence of pushes that all succeed
followed by as many pops returns exactly the pushed items in push order
(strict FIFO), and afterwards `size()` is 0. -/
theorem claim_C3 {A : Type} [Inhabited A] (N : Nat) (xs : List A)
    (h : xs.length ≤ N) :
    (RB.pushAll N (RB.init A) xs).1 = List.replicate xs.length true ∧
    (RB.popAll N (RB.pushAll N (RB.init A) xs).2 xs.length).1 = xs ∧
    RB.size (RB.popAll N (RB.pushAll N (RB.init A) xs).2 xs.length).2 = 0 := by
  have hh0 : (RB.init A).head = 0 := rfl
  have ht0 : (RB.init A).tail = 0 := rfl
  have wf0 : (RB.init A).tail ≤ (RB.init A).head := by omega
  have hroom : (RB.init A).head - (RB.init A).tail + xs.length ≤ N := by omega
  obtain ⟨h1, h2, h3, h4⟩ := RB.pushAll_spec N xs (RB.init A) wf0 hroom
  have hc0 : RB.contents N (RB.init A) = [] := by
    simp [RB.contents, RB.init]
  rw [hc0, List.nil_append] at h4
  have wf1 : (RB.pushAll N (RB.init A) xs).2.tail ≤
      (RB.pushAll N (RB.init A) xs).2.head := by omega
  have hn : (RB.pushAll N (RB.init A) xs).2.head -
      (RB.pushAll N (RB.init A) xs).2.tail = xs.length := by omega
  obtain ⟨q1, q2⟩ := RB.popAll_spec N xs.length (RB.pushAll N (RB.init A) xs).2 wf1 hn
  refine ⟨h1, ?_, ?_⟩
  · rw [q1, h4]
  · unfold RB.size
    omega

/-- Witness for C3: pushing `[7, 8, 9]` into an empty capacity-4 buffer
and popping three times returns `[7, 8, 9]` and leaves size 0. -/
theorem claim_C3_witness :
    (RB.pushAll 4 (RB.init Nat) [7, 8, 9]).1 = List.replicate 3 true ∧
    (RB.popAll 4 (RB.pushAll 4 (RB.init Nat) [7, 8, 9]).2 3).1 = [7, 8, 9] ∧
    RB.size (RB.popAll 4 (RB.pushAll 4 (RB.init Nat) [7, 8, 9]).2 3).2 = 0 :=
  claim_C3 4 [7, 8, 9] (by decide)

/-- C6 as amended: in one monitor observation with sample `r`, workers
are activated exactly when `r` exceeds the spawn threshold while
`active_threads < max_threads` and the incremented `spawn_counter`
reaches the hysteresis count; a sample not above the threshold resets
the counter; a qualifying sample short of hysteresis only increments
it; and an activation resets the counter and adds
`min(requested, max_threads - active_threads)` workers, where
`requested` is 1, or `max(1, floor((r - spawn_threshold)/factor))`
under batch scaling. -/
theorem claim_C6_amended (cfg : PoolCfg) (s : PoolSt) (r : Rat)
    (hinv : s.flags.count true = s.active_threads) :
    (¬ cfg.spawn_ratio_threshold < r →
      (monitorSpawn cfg s r).spawn_counter = 0 ∧
      (monitorSpawn cfg s r).active_threads = s.active_threads) ∧
    (cfg.spawn_ratio_threshold < r → cfg.max_threads ≤ s.active_threads →
      monitorSpawn cfg s r = s) ∧
    (cfg.spawn_ratio_threshold < r → s.active_threads < cfg.max_threads →
      s.spawn_counter + 1 < cfg.spawn_hysteresis_intervals →
      (monitorSpawn cfg s r).spawn_counter = s.spawn_counter + 1 ∧
      (monitorSpawn cfg s r).active_threads = s.active_threads) ∧
    (cfg.spawn_ratio_threshold < r → s.active_threads < cfg.max_threads →
      cfg.spawn_hysteresis_intervals ≤ s.spawn_counter + 1 →
      (monitorSpawn cfg s r).spawn_counter = 0 ∧
      (monitorSpawn cfg s r).active_threads =
        s.active_threads +
          min (spawnRequest cfg r) (cfg.max_threads - s.active_threads)) ∧
    (s.active_threads < (monitorSpawn cfg s r).active_threads →
      cfg.spawn_ratio_threshold < r ∧ s.active_threads < cfg.max_threads ∧
      cfg.spawn_hysteresis_intervals ≤ s.spawn_counter + 1) := by
  refine ⟨?_, ?_, ?_, ?_, ?_⟩
  · intro h1n
    simp [monitorSpawn, h1n]
  · intro h1 h2n
    have h2 : ¬ s.active_threads < cfg.max_threads := by omega
    simp [monitorSpawn, h1, h2]
  · intro h1 h2 h3n
    have h3 : ¬ cfg.spawn_hysteresis_intervals ≤ s.spawn_counter + 1 := by omega
    simp [monitorSpawn, h1, h2, h3]
  · intro h1 h2 h3
    have hinv' : (PoolSt.flags { s with spawn_counter := s.spawn_counter + 1 }).count true =
        PoolSt.active_threads { s with spawn_counter := s.spawn_counter + 1 } := hinv
    obtain ⟨w1, w2, w3, w4⟩ :=
      activate_workers_spec cfg (spawnRequest cfg r)
        { s with spawn_counter := s.spawn_counter + 1 } hinv'
    have hms : monitorSpawn cfg s r =
        { activate_workers cfg { s with spawn_counter := s.spawn_counter + 1 }
            (spawnRequest cfg r) with
          spawn_counter := 0 } := by
      simp [monitorSpawn, h1, h2, h3]
    rw [hms]
    exact ⟨rfl, w1⟩
  · intro hlt
    by_cases h1 : cfg.spawn_ratio_threshold < r
    · by_cases h2 : s.active_threads < cfg.max_threads
      · by_cases h3 : cfg.spawn_hysteresis_intervals ≤ s.spawn_counter + 1
        · exact ⟨h1, h2, h3⟩
        · exfalso
          have : (monitorSpawn cfg s r).active_threads = s.active_threads := by
            simp [monitorSpawn, h1, h2, h3]
          omega
      · exfalso
        have : (monitorSpawn cfg s r).active_threads = s.active_threads := by
          simp [monitorSpawn, h1, h2]
        omega
    · exfalso
      have : (monitorSpawn cfg s r).active_threads = s.active_threads := by
        simp [monitorSpawn, h1]
      omega

/-- Counterexample to C6: with batch scaling on (factor 1), threshold 1,
sample 7, the claimed activation count is `max(1, floor(6)) = 6`, but a
pool with 1 active thread out of a 2-thread maximum ends the monitor
iteration with 2 active threads — `activate_workers_` stops at
`max_threads`, so 1 worker is added, not 6. -/
theorem claim_C6_counterexample :
    spawnRequest cfgC6 7 = 6 ∧
    (monitor_step cfgC6 poolC6 7).active_threads = 2 ∧
    poolC6.active_threads + spawnRequest cfgC6 7 ≠ 2 := by
  have hq : ((7 : Rat) - 1) / 1 = 6 := by norm_num
  have hreq : spawnRequest cfgC6 7 = 6 := by
    simp [spawnRequest, cfgC6, hq]
  have hs : cfgC6.spawn_ratio_threshold < (7 : Rat) := by norm_num [cfgC6]
  have hsh : ¬ ((7 : Rat) < cfgC6.shrink_ratio_threshold) := by norm_num [cfgC6]
  refine ⟨hreq, ?_, by rw [hreq]; decide⟩
  have hstep : (monitor_step cfgC6 poolC6 7).active_threads =
      (monitorSpawn cfgC6 poolC6 7).active_threads := by
    simp [monitor_step, monitorShrink, hsh]
  rw [hstep]
  have h2 : poolC6.active_threads < cfgC6.max_threads := by decide
  have h3 : cfgC6.spawn_hysteresis_intervals ≤ poolC6.spawn_counter + 1 := by decide
  have hms : monitorSpawn cfgC6 poolC6 7 =
      { activate_workers cfgC6 { poolC6 with spawn_counter := poolC6.spawn_counter + 1 }
          (spawnRequest cfgC6 7) with
        spawn_counter := 0 } := by
    simp [monitorSpawn, hs, h2, h3]
  rw [hms, hreq]
  decide

/-- Witness for the amended C6: batch scaling off, hysteresis reached,
one worker activated. -/
theorem claim_C6_witness :
    (monitorSpawn cfgW poolW 2).spawn_counter = 0 ∧
    (monitorSpawn cfgW poolW 2).active_threads =
      poolW.active_threads +
        min (spawnRequest cfgW 2) (cfgW.max_threads - poolW.active_threads) :=
  (claim_C6_amended cfgW poolW 2 (by decide)).2.2.2.1
    (by norm_num [cfgW]) (by decide) (by decide)

/-- Counterexample to C8: the legacy logger unit
(`modules/logger/src/logger.cxx`, first translation unit) writes its
lines with a `YYYY-MM-DD HH:MM:SS.mmm` timestamp — three millisecond
digits, dashes and colons — which does not match the claimed
`YYYY_MM_DD-HH_MM_SS.ffffff` shape. -/
theorem claim_C8_counterexample :
    legacy_written_line tmSample 123 compSample Severity.INFO msgSample =
      legacy_time_stamp tmSample 123 ++ " | " ++ padField 10 compSample ++ " | " ++
        padField 8 (severity_to_string Severity.INFO) ++ " | " ++ msgSample ++ "\n" ∧
    legacy_time_stamp tmSample 123 = legacyTs ∧
    isClaimTimestamp legacyTs = false := by
  refine ⟨rfl, by decide, by decide⟩

/-- C8 as amended: every written line has the form
`<timestamp> | <component> | <severity> | <message>\n` — the `part_001`
`Logger` (and the legacy unit) right-justify the component to 10
columns and the severity to 8, while `LoggerImpl` writes both fields
unpadded; the severity string is one of the four wire strings; and the
microsecond-stamped units produce timestamps of the shape
`YYYY_MM_DD-HH_MM_SS.ffffff` with six zero-padded digits, whereas the
legacy unit stamps its lines with `YYYY-MM-DD HH:MM:SS.mmm`. -/
theorem claim_C8_amended (t : Tm) (micros : Nat) (component msg : String)
    (sv : Severity) (hy1 : 1000 ≤ t.year) (hy2 : t.year ≤ 9999)
    (hmo : t.month < 100) (hd : t.day < 100) (hh : t.hour < 100)
    (hmi : t.minute < 100) (hs : t.sec < 100) (hus : micros < 1000000) :
    written_line t micros component sv msg =
      get_time_stamp t micros ++ " | " ++ padField 10 component ++ " | " ++
        padField 8 (severity_to_string sv) ++ " | " ++ msg ++ "\n" ∧
    impl_written_line t micros component sv msg =
      get_time_stamp t micros ++ " | " ++ component ++ " | " ++
        severity_to_string sv ++ " | " ++ msg ++ "\n" ∧
    legacy_written_line t micros component sv msg =
      legacy_time_stamp t micros ++ " | " ++ padField 10 component ++ " | " ++
        padField 8 (severity_to_string sv) ++ " | " ++ msg ++ "\n" ∧
    (severity_to_string sv = "INFO" ∨ severity_to_string sv = "DEBUG" ∨
      severity_to_string sv = "WARNING" ∨ severity_to_string sv = "ERROR") ∧
    isClaimTimestamp (get_time_stamp t micros) = true := by
  refine ⟨rfl, rfl, rfl, ?_, ?_⟩
  · cases sv <;> simp [severity_to_string]
  · have hylen : (toDecimal t.year).length = 4 := by
      have hle := toDecimal_len_le 4 t.year (by omega) (by norm_num; omega)
      have hge := toDecimal_len_ge 3 t.year (by norm_num; omega)
      omega
    have hpad2 : ∀ m : Nat, m < 100 → (padNum 2 m).length = 2 := by
      intro m hm
      apply padNum_length
      apply toDecimal_len_le 2 m (by omega)
      norm_num
      omega
    have hpad6 : (padNum 6 micros).length = 6 := by
      apply padNum_length
      apply toDecimal_len_le 6 micros (by omega)
      norm_num
      omega
    have hdata : (get_time_stamp t micros).data =
        toDecimal t.year ++ '_' :: (padNum 2 t.month ++ '_' :: (padNum 2 t.day
          ++ '-' :: (padNum 2 t.hour ++ '_' :: (padNum 2 t.minute
          ++ '_' :: (padNum 2 t.sec ++ '.' :: padNum 6 micros))))) := rfl
    have hpat : tsPattern =
        List.replicate 4 isDigitB ++ (fun x => decide (x = '_')) ::
          (List.replicate 2 isDigitB ++ (fun x => decide (x = '_')) ::
          (List.replicate 2 isDigitB ++ (fun x => decide (x = '-')) ::
          (List.replicate 2 isDigitB ++ (fun x => decide (x = '_')) ::
          (List.replicate 2 isDigitB ++ (fun x => decide (x = '_')) ::
          (List.replicate 2 isDigitB ++ (fun x => decide (x = '.')) ::
          List.replicate 6 isDigitB))))) := rfl
    unfold isClaimTimestamp
    rw [hdata, hpat]
    apply checkPattern_digits_append _ 4 _ _ hylen (toDecimal_digits t.year)
    apply checkPattern_cons_self
    apply checkPattern_digits_append _ 2 _ _ (hpad2 t.month hmo) (padNum_digits 2 t.month)
    apply checkPattern_cons_self
    apply checkPattern_digits_append _ 2 _ _ (hpad2 t.day hd) (padNum_digits 2 t.day)
    apply checkPattern_cons_self
    apply checkPattern_digits_append _ 2 _ _ (hpad2 t.hour hh) (padNum_digits 2 t.hour)
    apply checkPattern_cons_self
    apply checkPattern_digits_append _ 2 _ _ (hpad2 t.minute hmi) (padNum_digits 2 t.minute)
    apply checkPattern_cons_self
    apply checkPattern_digits_append _ 2 _ _ (hpad2 t.sec hs) (padNum_digits 2 t.sec)
    apply checkPattern_cons_self
    exact checkPattern_digits _ 6 hpad6 (padNum_digits 6 micros)

/-- Witness for the amended C8: a full line at a concrete local time. -/
theorem claim_C8_witness :
    written_line tmSample 123456 compSample Severity.DEB msgSample =
      get_time_stamp tmSample 123456 ++ " | " ++ padField 10 compSample ++ " | " ++
        padField 8 (severity_to_string Severity.DEB) ++ " | " ++ msgSample ++ "\n" ∧
    impl_written_line tmSample 123456 compSample Severity.DEB msgSample =
      get_time_stamp tmSample 123456 ++ " | " ++ compSample ++ " | " ++
        severity_to_string Severity.DEB ++ " | " ++ msgSample ++ "\n" ∧
    (severity_to_string Severity.DEB = "INFO" ∨
      severity_to_string Severity.DEB = "DEBUG" ∨
      severity_to_string Severity.DEB = "WARNING" ∨
      severity_to_string Severity.DEB = "ERROR") ∧
    isClaimTimestamp (get_time_stamp tmSample 123456) = true := by
  have h := claim_C8_amended tmSample 123456 compSample msgSample Severity.DEB
    (by decide) (by decide) (by decide) (by decide) (by decide) (by decide)
    (by decide) (by decide)
  exact ⟨h.1, h.2.1, h.2.2.2.1, h.2.2.2.2⟩

/-- Witness for the amended C4 at a concrete input: a capacity-4 buffer
with 3 items, batch size 2. -/
theorem claim_C4_witness :
    (((RB.pop_batch 4 rbBatchW 2).1 =
        (List.range (min (RB.size rbBatchW) 2)).map
          (fun i => rbBatchW.buf ((rbBatchW.tail + i) % 4)) ∧
      (RB.pop_batch 4 rbBatchW 2).2.tail = rbBatchW.tail + min (RB.size rbBatchW) 2 ∧
      ((RB.pop_batch 4 rbBatchW 2).1 = [] ↔ RB.size rbBatchW = 0)) ∧
    RB.pop_batch_vec 4 rbBatchW 2 = RB.pop_batch 4 rbBatchW (min 2 1024)) :=
  claim_C4_amended 4 rbBatchW 2 (by decide)

end Stdx

